import Mathlib

/-!
Shallow embedding of the BRD generator's storage-synchronization layer
(`src/js/storage.js`, class `StorageManager`) and wizard/validation layer
(`src/js/form-generator.js`, class `FormGenerator`), with theorems checking
the natural-language specification against the code.

Conventions of the embedding:
* JS ISO-timestamp strings are ordered exactly as their numeric epoch values,
  and the code compares them numerically (`new Date(b.lastUpdated) -
  new Date(a.lastUpdated)`), so timestamps are modelled as `Nat`;
  `0` stands for an absent (`undefined`, JS-falsy) `createdAt`.
* Absent or empty string properties (`id`, `title`) are modelled as `""`,
  matching JS truthiness in `brdData.id || ...`.
* `async` functions that may throw are modelled with `Except String`;
  external effects (the Firestore write/fetch, `localStorage.setItem`)
  are modelled by explicit outcome parameters.
* `Array.prototype.sort` with a consistent comparator is the unique stable
  sort for that comparator; it is modelled by `List.mergeSort`, which is
  stable.
-/

/-- A persisted BRD record (the spec's `Record`). The dynamic field bag is
kept as an association list; only `id`, `title`, `createdAt`, `lastUpdated`
are inspected by the storage layer. -/
structure Record where
  id : String
  title : String
  createdAt : Nat
  lastUpdated : Nat
  fields : List (String × String)
deriving DecidableEq, Repr

/-- Base-36 digit character, as produced by JS `Number.prototype.toString(36)`
(`0`-`9` then `a`-`z`). -/
def b36digitChar (n : Nat) : Char :=
  if n < 10 then Char.ofNat (48 + n) else Char.ofNat (87 + n)

/-- Digits of `n` in base 36, most significant first, prepended to `acc`
(the recursion of `Number.prototype.toString(36)` for a natural number). -/
def base36Aux (n : Nat) (acc : List Char) : List Char :=
  if h : n < 36 then b36digitChar n :: acc
  else base36Aux (n / 36) (b36digitChar (n % 36) :: acc)
termination_by n
decreasing_by
  exact Nat.div_lt_self (Nat.lt_of_lt_of_le (by decide) (Nat.le_of_not_lt h))
    (by decide)

/-- JS `n.toString(36)` for a natural number. -/
def natToBase36 (n : Nat) : String := String.mk (base36Aux n [])

/-- `StorageManager.generateUniqueId`:
`Date.now().toString(36) + Math.random().toString(36).substr(2, 9)`.
The clock reading `dateNow` and the random suffix `rand` are parameters. -/
def generateUniqueId (dateNow : Nat) (rand : String) : String :=
  natToBase36 dateNow ++ rand

/-- The metadata stamping performed at the top of `StorageManager.saveBRD`
(the `brdWithMeta` object spread): stamp `lastUpdated`, default `id`,
`createdAt` and `title` when absent/falsy. -/
def stampMeta (now : Nat) (gid : String) (r : Record) : Record :=
  { r with
    id := if r.id ≠ "" then r.id else gid
    lastUpdated := now
    createdAt := if r.createdAt ≠ 0 then r.createdAt else now
    title := if r.title ≠ "" then r.title else "BRD Tanpa Judul" }

/-- Save mode: `'new'` or `'edit'`. -/
inductive Mode where
  | mknew : Mode
  | mkedit : Mode
deriving DecidableEq, Repr

/-- Outcomes of the external storage media during one `saveBRD` call:
`remoteAvail` is `canUseCloudStorage()`; `remoteFailure = some msg` means the
Firestore `docRef.set` rejects with `msg`; `localFailure = some msg` means
`localStorage.setItem` throws `msg`. -/
structure SaveEnv where
  remoteAvail : Bool
  remoteFailure : Option String
  localFailure : Option String
deriving DecidableEq, Repr

/-- The id-keyed upsert branch of `saveBRDToLocalStorage`: replace the draft
with the same `id`, else push. -/
def upsertById (drafts : List Record) (r : Record) : List Record :=
  match drafts.findIdx? (fun d => d.id = r.id) with
  | some i => drafts.set i r
  | none => drafts ++ [r]

/-- `StorageManager.saveBRDToLocalStorage` as a pure update of the cached
draft list: in edit mode with a valid `editIndex` overwrite that slot,
otherwise upsert by `id`. -/
def saveBRDToLocalStorage (r : Record) (mode : Mode) (editIndex : Option Nat)
    (drafts : List Record) : List Record :=
  match mode, editIndex with
  | Mode.mkedit, some i =>
      if i < drafts.length then drafts.set i r else upsertById drafts r
  | _, _ => upsertById drafts r

/-- `StorageManager.saveBRD`. Returns the call's outcome (the returned id, or
the rethrown error `"Gagal menyimpan BRD: " + error.message`) together with
the local cache after the call. The single `try`/`catch` wraps the Firestore
write, so a remote rejection propagates to the `catch` before the local write
runs. -/
def saveBRD (env : SaveEnv) (now : Nat) (gid : String) (brdData : Record)
    (mode : Mode) (editIndex : Option Nat) (cache : List Record) :
    Except String String × List Record :=
  let s := stampMeta now gid brdData
  match (if env.remoteAvail then env.remoteFailure else none) with
  | some msg => (Except.error ("Gagal menyimpan BRD: " ++ msg), cache)
  | none =>
    match env.localFailure with
    | some msg => (Except.error ("Gagal menyimpan BRD: " ++ msg), cache)
    | none => (Except.ok s.id, saveBRDToLocalStorage s mode editIndex cache)

/-- The comparator of `loadBRDs`' sort, as a Boolean "not after" relation:
`(a, b) => new Date(b.lastUpdated) - new Date(a.lastUpdated)` says to keep
`a` before `b` exactly when `b.lastUpdated ≤ a.lastUpdated`. -/
def luDescLe (a b : Record) : Bool := b.lastUpdated ≤ a.lastUpdated

/-- The in-place `brds.sort((a, b) => new Date(b.lastUpdated) -
new Date(a.lastUpdated))`: the stable descending sort by `lastUpdated`. -/
def sortByLastUpdatedDesc (l : List Record) : List Record :=
  l.mergeSort luDescLe

/-- `StorageManager.loadBRDs`. `avail` is `canUseCloudStorage()`; `fetch` is
the outcome of `loadBRDsFromFirestore()`. Returns `(result, cache')`:
on a successful remote fetch the raw fetched list is synced to the cache and
the sorted list returned; on a remote error the `catch` returns the local
cache untouched; with no remote the cache is returned sorted. The function
itself never throws, hence the total `Except.ok`. -/
def loadBRDs (avail : Bool) (fetch : Except String (List Record))
    (cache : List Record) : Except String (List Record × List Record) :=
  if avail then
    match fetch with
    | Except.ok brds => Except.ok (sortByLastUpdatedDesc brds, brds)
    | Except.error _ => Except.ok (cache, cache)
  else Except.ok (sortByLastUpdatedDesc cache, cache)

/-- The dedup test of `migrateLocalToCloud`:
`cloudBRDs.some(c => c.title === localBRD.title && c.createdAt === localBRD.createdAt)`. -/
def existsInCloud (cloudBRDs : List Record) (localBRD : Record) : Bool :=
  cloudBRDs.any (fun c => c.title == localBRD.title &&
    c.createdAt == localBRD.createdAt)

/-- The `for` loop of `migrateLocalToCloud`. `pushFails r = true` means the
`saveBRDToFirestore(r, "new")` call for `r` rejects. Returns
`(some count, pushed)` when the loop completes, `(none, pushed)` when a push
throws (aborting the loop); `pushed` is the list of records that reached the
remote store either way. -/
def migrateLoop (pushFails : Record → Bool) (cloudBRDs : List Record) :
    List Record → Nat → List Record → Option Nat × List Record
  | [], count, pushed => (some count, pushed)
  | l :: rest, count, pushed =>
    if existsInCloud cloudBRDs l then
      migrateLoop pushFails cloudBRDs rest count pushed
    else if pushFails l then (none, pushed)
    else migrateLoop pushFails cloudBRDs rest (count + 1) (pushed ++ [l])

/-- `StorageManager.migrateLocalToCloud`. Returns `(returned count, records
pushed to remote)`. Without cloud access it returns 0; the surrounding
`try`/`catch` turns any thrown push error into a returned count of 0. -/
def migrateLocalToCloud (avail : Bool) (pushFails : Record → Bool)
    (localBRDs cloudBRDs : List Record) : Nat × List Record :=
  if avail then
    match migrateLoop pushFails cloudBRDs localBRDs 0 [] with
    | (some n, pushed) => (n, pushed)
    | (none, pushed) => (0, pushed)
  else (0, [])

/-! ## Wizard / validation layer (`src/js/form-generator.js`) -/

/-- A reason produced by `markFieldInvalid` inside `validateField`, with the
bound that triggered it. -/
inductive Reason where
  | missingRequired : Reason
  | tooShort : Nat → Reason
  | tooLong : Nat → Reason
deriving DecidableEq, Repr

/-- The user-facing message `markFieldInvalid` writes for each reason. -/
def reasonMessage : Reason → String
  | Reason.missingRequired => "Field ini wajib diisi"
  | Reason.tooShort n => "Minimal " ++ toString n ++ " karakter"
  | Reason.tooLong n => "Maksimal " ++ toString n ++ " karakter"

/-- A field's `validation` object. `0` models an absent (JS-falsy) bound,
matching the truthiness tests `validation.minLength && ...`. -/
structure Validation where
  minLength : Nat
  maxLength : Nat
deriving DecidableEq, Repr

/-- A field definition from `initializeSections` (the attributes the
validation and navigation logic reads). In the schema `name = id` for every
field. -/
structure FieldDef where
  id : String
  name : String
  required : Bool
  validation : Option Validation
deriving DecidableEq, Repr

/-- A wizard section: an ordered list of field definitions. -/
structure Section where
  id : String
  fields : List FieldDef
deriving DecidableEq, Repr

/-- JS `String.prototype.trim`: strip leading and trailing whitespace
(structurally, so that concrete instances evaluate). -/
def jsTrim (s : String) : String :=
  String.mk
    (((s.data.dropWhile Char.isWhitespace).reverse.dropWhile
      Char.isWhitespace).reverse)

/-- The sequence of `markFieldInvalid` calls performed by
`FormGenerator.validateField` on a field whose input holds `raw`:
the required check on the trimmed value, then — only for a non-empty trimmed
value and a present `validation` object — the truthy `minLength` and
`maxLength` checks. -/
def validateFieldReasons (f : FieldDef) (raw : String) : List Reason :=
  let value := jsTrim raw
  (if f.required ∧ value = "" then [Reason.missingRequired] else []) ++
  (if value ≠ "" then
    match f.validation with
    | some v =>
      (if v.minLength ≠ 0 ∧ value.length < v.minLength then
        [Reason.tooShort v.minLength] else []) ++
      (if v.maxLength ≠ 0 ∧ v.maxLength < value.length then
        [Reason.tooLong v.maxLength] else [])
    | none => []
  else [])

/-- The Boolean result of `FormGenerator.validateField`: `true` iff no
`markFieldInvalid` call fired. -/
def validateField (f : FieldDef) (raw : String) : Bool :=
  validateFieldReasons f raw = []

/-- The live DOM values of the current section's inputs, as a map from field
id (the element `input-${field.id}`) to its value. -/
def Vals : Type := String → String

/-- The Boolean result of `FormGenerator.validateCurrentSection` over the
current section: every field's `validateField` passes. -/
def validateCurrentSection (sec : Section) (vals : Vals) : Bool :=
  sec.fields.all (fun f => validateField f (vals f.id))

/-- The failure report `validateCurrentSection` leaves in the DOM: for each
invalid field one error element, keyed by the field's id, holding the last
`markFieldInvalid` message for that field. -/
def sectionFailures (sec : Section) (vals : Vals) :
    List (String × String) :=
  sec.fields.filterMap (fun f =>
    ((validateFieldReasons f (vals f.id)).getLast?).map
      (fun r => (f.id, reasonMessage r)))

/-- The fields of `sec` that fail validation against `vals`. -/
def invalidFields (sec : Section) (vals : Vals) : List FieldDef :=
  sec.fields.filter (fun f => !(validateField f (vals f.id)))

/-- `FormGenerator.getCurrentFormData` over the current section: reads every
input of the rendered section into `{ [input.name]: input.value }`. -/
def getCurrentFormData (sec : Section) (vals : Vals) :
    List (String × String) :=
  sec.fields.map (fun f => (f.name, vals f.id))

/-- One `Object.assign` key update on an association-list draft: overwrite
the value at an existing key in place, else append the pair. -/
def assignKey (fd : List (String × String)) (kv : String × String) :
    List (String × String) :=
  match fd.findIdx? (fun p => p.1 = kv.1) with
  | some i => fd.set i kv
  | none => fd ++ [kv]

/-- `Object.assign(this.formData, currentFormData)`: merge the section's
data into the draft, key by key. -/
def mergeData (fd updates : List (String × String)) :
    List (String × String) :=
  updates.foldl assignKey fd

/-- The transient wizard state the navigation handlers mutate:
`currentStep` and the accumulated draft `formData`. -/
structure WizardState where
  currentStep : Nat
  formData : List (String × String)

/-- Placeholder for an out-of-range section access. -/
def emptySection : Section := { id := "", fields := [] }

/-- `FormGenerator.saveCurrentSectionData` applied to a state: merge the
current section's live values into the draft. -/
def saveCurrentSectionData (sections : List Section) (vals : Vals)
    (st : WizardState) : WizardState :=
  let sec := sections.getD st.currentStep emptySection
  { st with formData := mergeData st.formData (getCurrentFormData sec vals) }

/-- `FormGenerator.navigateNext`: validate the current section; on failure
return with the state untouched; on success save the section data and either
advance one step or (at the last section) hand the draft to `saveBRD`,
leaving the index in place. -/
def navigateNext (sections : List Section) (vals : Vals)
    (st : WizardState) : WizardState :=
  if validateCurrentSection (sections.getD st.currentStep emptySection) vals
  then
    let st' := saveCurrentSectionData sections vals st
    if st.currentStep < sections.length - 1 then
      { st' with currentStep := st.currentStep + 1 }
    else st'
  else st

/-- The sidebar click handler built by `FormGenerator.buildSidebarNav`
followed by `loadFormSection(index)`: when the target differs from the
current step, save the current section's data (no validation) and set
`currentStep` to the target, guarded only by `loadFormSection`'s
out-of-range check. -/
def jumpTo (sections : List Section) (vals : Vals) (st : WizardState)
    (index : Nat) : WizardState :=
  if st.currentStep ≠ index then
    let st' := saveCurrentSectionData sections vals st
    if index < sections.length then { st' with currentStep := index }
    else st'
  else st

/-! ## Helper lemmas -/

theorem base36Aux_ne_nil : ∀ (n : Nat) (acc : List Char), base36Aux n acc ≠ [] := by
  intro n
  induction n using Nat.strong_induction_on with
  | _ n ih =>
    intro acc
    rw [base36Aux]
    split
    · simp
    · rename_i h
      exact ih (n / 36) (Nat.div_lt_self (by omega) (by decide)) _

theorem generateUniqueId_ne_empty (d : Nat) (rand : String) :
    generateUniqueId d rand ≠ "" := by
  intro h
  have h2 : (natToBase36 d ++ rand).data = ("" : String).data := congrArg String.data h
  rw [String.data_append] at h2
  have h3 : (natToBase36 d).data = [] := List.append_eq_nil.mp h2 |>.1
  exact base36Aux_ne_nil d [] h3

theorem mem_upsertById {drafts : List Record} {r x : Record}
    (h : x ∈ upsertById drafts r) : x ∈ drafts ∨ x = r := by
  unfold upsertById at h
  split at h
  · exact List.mem_or_eq_of_mem_set h
  · rcases List.mem_append.mp h with h' | h'
    · exact Or.inl h'
    · exact Or.inr (List.mem_singleton.mp h')

theorem mem_saveBRDToLocalStorage {r x : Record} {mode : Mode}
    {editIndex : Option Nat} {drafts : List Record}
    (h : x ∈ saveBRDToLocalStorage r mode editIndex drafts) :
    x ∈ drafts ∨ x = r := by
  unfold saveBRDToLocalStorage at h
  split at h
  · split at h
    · exact List.mem_or_eq_of_mem_set h
    · exact mem_upsertById h
  · exact mem_upsertById h


/-! ## Claim C1 -/

/-- A concrete record used in concrete instantiations. -/
def sampleRec : Record :=
  { id := "r1", title := "T", createdAt := 5, lastUpdated := 1, fields := [] }

/-- A save environment where both storage media are healthy and no remote
identity is present. -/
def noFailEnv : SaveEnv :=
  { remoteAvail := false, remoteFailure := none, localFailure := none }

/-- A save environment with an available remote whose write rejects, while
the local store is healthy. -/
def remoteDownEnv : SaveEnv :=
  { remoteAvail := true, remoteFailure := some "netdown", localFailure := none }

/-- C1, counterexample. With cloud storage available, a rejecting Firestore
write and a healthy local store, `saveBRD` returns the rethrown error and
leaves the local cache untouched — contradicting the claim that the local
write still proceeds and the id is still returned. -/
theorem c1_counterexample :
    saveBRD remoteDownEnv 10 "g1" sampleRec Mode.mknew none [] =
    (Except.error "Gagal menyimpan BRD: netdown", []) := rfl

/-- C1, amended: while remote storage is available, a failure of the remote
(Firestore) write aborts the save — the local-cache write does not run, the
cache is unchanged, no id is returned, and the error is surfaced to the
caller as `"Gagal menyimpan BRD: " + message` (regardless of whether the
local write would have succeeded). -/
theorem c1_remote_failure_aborts (env : SaveEnv) (now : Nat) (gid : String)
    (r : Record) (mode : Mode) (editIndex : Option Nat) (cache : List Record)
    (msg : String) (h1 : env.remoteAvail = true)
    (h2 : env.remoteFailure = some msg) :
    saveBRD env now gid r mode editIndex cache =
      (Except.error ("Gagal menyimpan BRD: " ++ msg), cache) := by
  simp [saveBRD, h1, h2]

/-- C1, witness for `c1_remote_failure_aborts` at a concrete input. -/
theorem c1_remote_failure_aborts_witness :
    saveBRD remoteDownEnv 10 "g1" sampleRec Mode.mknew none [] =
    (Except.error ("Gagal menyimpan BRD: " ++ "netdown"), []) :=
  c1_remote_failure_aborts remoteDownEnv 10 "g1" sampleRec Mode.mknew none []
    "netdown" rfl rfl

/-! ## Claim C3 -/

/-- C3: `saveBRD` stamps `lastUpdated = now` on every save; it installs the
generated id exactly when the input has none and keeps an existing id;
it stamps `createdAt = now` exactly when the input has none and keeps an
existing `createdAt`; a subsequent save of the saved record changes neither
`id` nor `createdAt`; and a save in which neither storage medium fails
returns the record's id. -/
theorem c3_save_stamps_metadata (env : SaveEnv) (d d2 : Nat)
    (rand rand2 : String) (now now2 : Nat) (r : Record) (mode : Mode)
    (editIndex : Option Nat) (cache : List Record) (hnow : 0 < now) :
    (stampMeta now (generateUniqueId d rand) r).lastUpdated = now ∧
    (r.id = "" →
      (stampMeta now (generateUniqueId d rand) r).id = generateUniqueId d rand) ∧
    (r.id ≠ "" → (stampMeta now (generateUniqueId d rand) r).id = r.id) ∧
    (r.createdAt = 0 →
      (stampMeta now (generateUniqueId d rand) r).createdAt = now) ∧
    (r.createdAt ≠ 0 →
      (stampMeta now (generateUniqueId d rand) r).createdAt = r.createdAt) ∧
    (stampMeta now2 (generateUniqueId d2 rand2)
        (stampMeta now (generateUniqueId d rand) r)).id =
      (stampMeta now (generateUniqueId d rand) r).id ∧
    (stampMeta now2 (generateUniqueId d2 rand2)
        (stampMeta now (generateUniqueId d rand) r)).createdAt =
      (stampMeta now (generateUniqueId d rand) r).createdAt ∧
    (env.remoteFailure = none → env.localFailure = none →
      (saveBRD env now (generateUniqueId d rand) r mode editIndex cache).1 =
        Except.ok (stampMeta now (generateUniqueId d rand) r).id) := by
  have hid : (stampMeta now (generateUniqueId d rand) r).id ≠ "" := by
    by_cases h : r.id = "" <;>
      simp [stampMeta, h, generateUniqueId_ne_empty d rand]
  have hca : (stampMeta now (generateUniqueId d rand) r).createdAt ≠ 0 := by
    by_cases h : r.createdAt = 0
    · simp [stampMeta, h]; omega
    · simp [stampMeta, h]
  refine ⟨rfl, ?_, ?_, ?_, ?_, ?_, ?_, ?_⟩
  · intro h; simp [stampMeta, h]
  · intro h; simp [stampMeta, h]
  · intro h; simp [stampMeta, h]
  · intro h; simp [stampMeta, h]
  · by_cases h : r.id = ""
    · simp [stampMeta, h, generateUniqueId_ne_empty d rand]
    · simp [stampMeta, h]
  · by_cases h : r.createdAt = 0
    · simp [stampMeta, h, Nat.pos_iff_ne_zero.mp hnow]
    · simp [stampMeta, h]
  · intro h1 h2
    cases henv : env.remoteAvail <;> simp [saveBRD, henv, h1, h2]

/-- A concrete record with no id, no `createdAt` and an empty title, as a
wizard submits on a first save. -/
def freshRec : Record :=
  { id := "", title := "", createdAt := 0, lastUpdated := 0, fields := [] }

/-- C3, witness for `c3_save_stamps_metadata` at a concrete input: a first
save of a record with no id and no `createdAt`. -/
theorem c3_save_stamps_metadata_witness :
    (stampMeta 10 (generateUniqueId 7 "xyz") freshRec).id =
      generateUniqueId 7 "xyz" :=
  (c3_save_stamps_metadata noFailEnv
    7 8 "xyz" "w" 10 20 freshRec Mode.mknew none [] (by decide)).2.1 rfl

/-! ## Claim C4 -/

/-- C4: with remote storage available but a failing remote fetch, `loadBRDs`
returns (and keeps cached) exactly the local cache, unmodified and unsorted,
and throws nothing — the `catch` swallows the error. -/
theorem c4_remote_fetch_error_falls_back (cache : List Record) (e : String) :
    loadBRDs true (Except.error e) cache = Except.ok (cache, cache) := rfl

/-! ## Claim C10 -/

/-- C10: the record `saveBRD` persists always carries a non-empty title —
an absent/empty input title is replaced by `"BRD Tanpa Judul"`, a non-empty
one is kept — and every record in the cache after a save is either an old
cache entry or exactly that stamped record. -/
theorem c10_title_defaulted (env : SaveEnv) (now : Nat) (gid : String)
    (r : Record) (mode : Mode) (editIndex : Option Nat)
    (cache : List Record) :
    (stampMeta now gid r).title ≠ "" ∧
    (r.title = "" → (stampMeta now gid r).title = "BRD Tanpa Judul") ∧
    (r.title ≠ "" → (stampMeta now gid r).title = r.title) ∧
    (∀ x ∈ (saveBRD env now gid r mode editIndex cache).2,
      x ∈ cache ∨ x = stampMeta now gid r) := by
  refine ⟨?_, ?_, ?_, ?_⟩
  · by_cases h : r.title = "" <;> simp [stampMeta, h]
  · intro h; simp [stampMeta, h]
  · intro h; simp [stampMeta, h]
  · intro x hx
    unfold saveBRD at hx
    split at hx
    · exact Or.inl hx
    · split at hx
      · exact Or.inl hx
      · exact mem_saveBRDToLocalStorage hx

/-- C10, witness for `c10_title_defaulted` at a concrete input: a record
saved with an empty title is persisted titled `"BRD Tanpa Judul"`. -/
theorem c10_title_defaulted_witness :
    (stampMeta 10 "g1" freshRec).title = "BRD Tanpa Judul" :=
  (c10_title_defaulted noFailEnv 10 "g1" freshRec Mode.mknew none []).2.1 rfl

/-! ## Claim C5 -/

/-- The loop of `migrateLocalToCloud` when every push succeeds: it completes,
counting and pushing exactly the local records with no title-and-createdAt
match in the cloud collection. -/
theorem migrateLoop_all_pushes_succeed (cloudBRDs : List Record) :
    ∀ (localBRDs : List Record) (count : Nat) (pushed : List Record),
    migrateLoop (fun _ => false) cloudBRDs localBRDs count pushed =
      (some (count +
        (localBRDs.filter (fun l => !existsInCloud cloudBRDs l)).length),
       pushed ++ localBRDs.filter (fun l => !existsInCloud cloudBRDs l)) := by
  intro localBRDs
  induction localBRDs with
  | nil => intro count pushed; simp [migrateLoop]
  | cons l rest ih =>
    intro count pushed
    by_cases h : existsInCloud cloudBRDs l
    · simp [migrateLoop, h, ih]
    · simp only [migrateLoop, h, if_false, if_neg, Bool.false_eq_true,
        not_false_eq_true, List.filter_cons, Bool.not_eq_eq_eq_not,
        Bool.not_true]
      rw [ih]
      simp [h]
      omega

/-- C5: when the remote is reachable and every push succeeds,
`migrateLocalToCloud` skips a local record exactly when some remote record
matches it on both `title` and `createdAt`, pushes exactly the remaining
(local-only) records, and returns their number. -/
theorem c5_migration_dedup (localBRDs cloudBRDs : List Record) :
    migrateLocalToCloud true (fun _ => false) localBRDs cloudBRDs =
      ((localBRDs.filter (fun l => !existsInCloud cloudBRDs l)).length,
       localBRDs.filter (fun l => !existsInCloud cloudBRDs l)) ∧
    (∀ l : Record, existsInCloud cloudBRDs l = true ↔
      ∃ c ∈ cloudBRDs, c.title = l.title ∧ c.createdAt = l.createdAt) := by
  constructor
  · simp [migrateLocalToCloud, migrateLoop_all_pushes_succeed]
  · intro l
    simp [existsInCloud, List.any_eq_true]

/-! ## Claim C6 -/

/-- A second concrete record, distinct from `sampleRec`. -/
def sampleRecB : Record :=
  { id := "b", title := "B", createdAt := 2, lastUpdated := 2, fields := [] }

/-- C6, counterexample. Two local-only records; the push of the second one
fails after the first was pushed successfully. The claim says the count of
successes (1) is still returned; the code's `catch` returns 0 instead. -/
theorem c6_counterexample :
    migrateLocalToCloud true (fun r => r.id == "b") [sampleRec, sampleRecB] []
      = (0, [sampleRec]) ∧ [sampleRec].length = 1 := by
  constructor
  · rfl
  · rfl

/-- The loop's returned count is `none` (an exception escaped the loop) as
soon as some local record is neither deduplicated away nor pushable. -/
theorem migrateLoop_aborts (pushFails : Record → Bool)
    (cloudBRDs : List Record) :
    ∀ (localBRDs : List Record) (count : Nat) (pushed : List Record),
    (∃ l ∈ localBRDs, existsInCloud cloudBRDs l = false ∧ pushFails l = true) →
    (migrateLoop pushFails cloudBRDs localBRDs count pushed).1 = none := by
  intro localBRDs
  induction localBRDs with
  | nil => intro count pushed h; simp at h
  | cons l rest ih =>
    intro count pushed h
    obtain ⟨w, hw, hwc, hwf⟩ := h
    by_cases h1 : existsInCloud cloudBRDs l
    · have hwrest : w ∈ rest := by
        rcases List.mem_cons.mp hw with h' | h'
        · rw [h'] at hwc; rw [hwc] at h1; exact absurd h1 (by simp)
        · exact h'
      simp only [migrateLoop, h1, if_true]
      exact ih count pushed ⟨w, hwrest, hwc, hwf⟩
    · by_cases h2 : pushFails l
      · simp [migrateLoop, h1, h2]
      · have hwrest : w ∈ rest := by
          rcases List.mem_cons.mp hw with h' | h'
          · rw [h'] at hwf; rw [hwf] at h2; exact absurd rfl h2
          · exact h'
        have he : migrateLoop pushFails cloudBRDs (l :: rest) count pushed =
            migrateLoop pushFails cloudBRDs rest (count + 1) (pushed ++ [l]) := by
          simp [migrateLoop, h1, h2]
        rw [he]
        exact ih (count + 1) (pushed ++ [l]) ⟨w, hwrest, hwc, hwf⟩

/-- Every record the loop pushed either was already in the accumulator or is
a local record that missed the dedup test and whose push succeeded. -/
theorem migrateLoop_pushed_mem (pushFails : Record → Bool)
    (cloudBRDs : List Record) :
    ∀ (localBRDs : List Record) (count : Nat) (pushed : List Record)
      (x : Record),
    x ∈ (migrateLoop pushFails cloudBRDs localBRDs count pushed).2 →
    x ∈ pushed ∨ (x ∈ localBRDs ∧ existsInCloud cloudBRDs x = false ∧
      pushFails x = false) := by
  intro localBRDs
  induction localBRDs with
  | nil => intro count pushed x hx; exact Or.inl (by simpa [migrateLoop] using hx)
  | cons l rest ih =>
    intro count pushed x hx
    by_cases h1 : existsInCloud cloudBRDs l
    · simp only [migrateLoop, h1, if_true] at hx
      rcases ih count pushed x hx with h' | ⟨hm, hc, hf⟩
      · exact Or.inl h'
      · exact Or.inr ⟨List.mem_cons_of_mem _ hm, hc, hf⟩
    · by_cases h2 : pushFails l
      · have he : migrateLoop pushFails cloudBRDs (l :: rest) count pushed =
            (none, pushed) := by
          simp [migrateLoop, h1, h2]
        rw [he] at hx
        exact Or.inl hx
      · have he : migrateLoop pushFails cloudBRDs (l :: rest) count pushed =
            migrateLoop pushFails cloudBRDs rest (count + 1) (pushed ++ [l]) := by
          simp [migrateLoop, h1, h2]
        rw [he] at hx
        rcases ih (count + 1) (pushed ++ [l]) x hx with h' | ⟨hm, hc, hf⟩
        · rcases List.mem_append.mp h' with h'' | h''
          · exact Or.inl h''
          · refine Or.inr ⟨?_, ?_, ?_⟩
            · rw [List.mem_singleton.mp h'']; exact List.mem_cons_self _ _
            · rw [List.mem_singleton.mp h'']
              exact Bool.eq_false_iff.mpr h1
            · rw [List.mem_singleton.mp h'']
              exact Bool.eq_false_iff.mpr h2
        · exact Or.inr ⟨List.mem_cons_of_mem _ hm, hc, hf⟩

/-- C6, amended: if, with the remote reachable, some local-only record's push
fails, `migrateLocalToCloud` returns 0 — not the count of the pushes that
succeeded before the failure — while the successfully pushed records do
remain in the remote collection (each pushed record is a local record that
missed the dedup test and whose own push succeeded). -/
theorem c6_push_failure_discards_count (pushFails : Record → Bool)
    (localBRDs cloudBRDs : List Record)
    (h : ∃ l ∈ localBRDs, existsInCloud cloudBRDs l = false ∧
      pushFails l = true) :
    (migrateLocalToCloud true pushFails localBRDs cloudBRDs).1 = 0 ∧
    (∀ x ∈ (migrateLocalToCloud true pushFails localBRDs cloudBRDs).2,
      x ∈ localBRDs ∧ existsInCloud cloudBRDs x = false ∧
        pushFails x = false) := by
  have h1 := migrateLoop_aborts pushFails cloudBRDs localBRDs 0 [] h
  constructor
  · rcases hm : migrateLoop pushFails cloudBRDs localBRDs 0 [] with ⟨fst, snd⟩
    rw [hm] at h1
    simp at h1
    simp [migrateLocalToCloud, hm, h1]
  · intro x hx
    have h2 := migrateLoop_pushed_mem pushFails cloudBRDs localBRDs 0 [] x
    rcases hm : migrateLoop pushFails cloudBRDs localBRDs 0 [] with ⟨fst, snd⟩
    rw [hm] at h1 h2
    simp at h1
    simp only [migrateLocalToCloud, hm, h1, if_true] at hx
    rcases h2 (by simpa using hx) with h' | h'
    · simp at h'
    · exact h'

/-- C6, witness for `c6_push_failure_discards_count` at a concrete input. -/
theorem c6_push_failure_discards_count_witness :
    (migrateLocalToCloud true (fun r => r.id == "b")
      [sampleRec, sampleRecB] []).1 = 0 :=
  (c6_push_failure_discards_count (fun r => r.id == "b")
    [sampleRec, sampleRecB] [] (by decide)).1

/-! ## Claim C2 -/

theorem luDescLe_trans (a b c : Record) (h1 : luDescLe a b)
    (h2 : luDescLe b c) : luDescLe a c := by
  simp only [luDescLe, decide_eq_true_eq] at *
  omega

theorem luDescLe_total (a b : Record) : luDescLe a b || luDescLe b a := by
  simp only [luDescLe, Bool.or_eq_true, decide_eq_true_eq]
  omega

/-- The sort of `loadBRDs` is pairwise descending on `lastUpdated`. -/
theorem sortByLastUpdatedDesc_sorted (l : List Record) :
    (sortByLastUpdatedDesc l).Pairwise
      (fun a b => b.lastUpdated ≤ a.lastUpdated) := by
  have h := List.sorted_mergeSort luDescLe_trans luDescLe_total l
  exact h.imp (by intro a b hab; simpa [luDescLe] using hab)

/-- Stability of the sort of `loadBRDs`: the records carrying any fixed
`lastUpdated` value appear in the output in their original relative order. -/
theorem sortByLastUpdatedDesc_stable (l : List Record) (t : Nat) :
    (sortByLastUpdatedDesc l).filter (fun r => r.lastUpdated == t) =
      l.filter (fun r => r.lastUpdated == t) := by
  set p : Record → Bool := fun r => r.lastUpdated == t with hp
  have hmemt : ∀ x ∈ l.filter p, x.lastUpdated = t := by
    intro x hx
    have := (List.mem_filter.mp hx).2
    simpa [hp] using this
  have hpw : (l.filter p).Pairwise (fun a b => luDescLe a b) := by
    apply List.pairwise_of_forall_mem_list
    intro a ha b hb
    simp [luDescLe, hmemt a ha, hmemt b hb]
  have hsub : List.Sublist (l.filter p) (sortByLastUpdatedDesc l) :=
    List.sublist_mergeSort luDescLe_trans luDescLe_total hpw
      (List.filter_sublist l)
  have hsub2 : List.Sublist (l.filter p)
      ((sortByLastUpdatedDesc l).filter p) := by
    have h' := hsub.filter p
    rw [List.filter_filter] at h'
    simpa [Bool.and_self] using h'
  have hlen : ((sortByLastUpdatedDesc l).filter p).length =
      (l.filter p).length :=
    ((List.mergeSort_perm l luDescLe).filter p).length_eq
  exact (hsub2.eq_of_length hlen.symm).symm

/-- C2: `loadBRDs` returns, in both non-throwing paths, the stable descending
sort by `lastUpdated` of the underlying collection (the local cache, or the
fetched remote collection): consecutive pairs satisfy
`a.lastUpdated >= b.lastUpdated`, and records with equal `lastUpdated` keep
their original relative order. -/
theorem c2_loadBRDs_sorted (fetch : Except String (List Record))
    (cache brds : List Record) :
    loadBRDs false fetch cache =
      Except.ok (sortByLastUpdatedDesc cache, cache) ∧
    loadBRDs true (Except.ok brds) cache =
      Except.ok (sortByLastUpdatedDesc brds, brds) ∧
    (∀ l : List Record, (sortByLastUpdatedDesc l).Pairwise
      (fun a b => b.lastUpdated ≤ a.lastUpdated)) ∧
    (∀ (l : List Record) (t : Nat),
      (sortByLastUpdatedDesc l).filter (fun r => r.lastUpdated == t) =
        l.filter (fun r => r.lastUpdated == t)) :=
  ⟨rfl, rfl, sortByLastUpdatedDesc_sorted, sortByLastUpdatedDesc_stable⟩

/-! ## Claim C8 -/

/-- C8: `validateField` fires the missing-required reason exactly when the
field is required and the trimmed value is empty; given a present minimum
(resp. maximum) length bound it fires too-short (resp. too-long) exactly when
the trimmed value is non-empty and shorter (resp. longer) than the bound; and
on an empty trimmed value no length reason ever fires. -/
theorem c8_validateField_reasons (f : FieldDef) (raw : String) :
    (Reason.missingRequired ∈ validateFieldReasons f raw ↔
      (f.required = true ∧ jsTrim raw = "")) ∧
    (∀ v : Validation, f.validation = some v → v.minLength ≠ 0 →
      (Reason.tooShort v.minLength ∈ validateFieldReasons f raw ↔
        (jsTrim raw ≠ "" ∧ (jsTrim raw).length < v.minLength))) ∧
    (∀ v : Validation, f.validation = some v → v.maxLength ≠ 0 →
      (Reason.tooLong v.maxLength ∈ validateFieldReasons f raw ↔
        (jsTrim raw ≠ "" ∧ v.maxLength < (jsTrim raw).length))) ∧
    (jsTrim raw = "" → ∀ n : Nat,
      Reason.tooShort n ∉ validateFieldReasons f raw ∧
      Reason.tooLong n ∉ validateFieldReasons f raw) := by
  refine ⟨?_, ?_, ?_, ?_⟩
  · by_cases h0 : jsTrim raw = "" <;> by_cases hr : f.required <;>
      rcases hv : f.validation with _ | v <;>
      simp [validateFieldReasons, h0, hr, hv]
  · intro v hv hm
    by_cases h0 : jsTrim raw = "" <;>
      simp [validateFieldReasons, h0, hv, hm]
  · intro v hv hm
    by_cases h0 : jsTrim raw = "" <;>
      simp [validateFieldReasons, h0, hv, hm]
  · intro h0 n
    rcases hv : f.validation with _ | v <;>
      simp [validateFieldReasons, h0, hv]

/-- The title field of the `document-info` section of `initializeSections`
(attributes read by validation). -/
def fTitle : FieldDef :=
  { id := "title", name := "title", required := true,
    validation := some { minLength := 5, maxLength := 100 } }

/-- The version field of the `document-info` section: required, with no
length bounds. -/
def fVersi : FieldDef :=
  { id := "versi", name := "versi", required := true, validation := none }

/-- A concrete wizard section with the two fields above. -/
def secDoc : Section := { id := "document-info", fields := [fTitle, fVersi] }

/-- A concrete second wizard section. -/
def secOverview : Section := { id := "project-overview", fields := [] }

/-- Concrete live input values: the title input is left empty, every other
input holds `"1.0"`. -/
def valsEmptyTitle : Vals := fun k => if k = "title" then "" else "1.0"

/-- C8, witness for `c8_validateField_reasons` at a concrete input: the
title field with the raw value `"abc"` (non-empty, under the minimum). -/
theorem c8_validateField_reasons_witness :
    Reason.tooShort 5 ∈ validateFieldReasons fTitle "abc" ↔
      (jsTrim "abc" ≠ "" ∧ (jsTrim "abc").length < 5) :=
  (c8_validateField_reasons fTitle "abc").2.1
    { minLength := 5, maxLength := 100 } rfl (by decide)

/-! ## Claim C7 -/

/-- The keys of the failure report are exactly the ids of the invalid
fields, in section order: one failure per invalid field. -/
theorem sectionFailures_keys (sec : Section) (vals : Vals) :
    (sectionFailures sec vals).map Prod.fst =
      (invalidFields sec vals).map FieldDef.id := by
  unfold sectionFailures invalidFields
  induction sec.fields with
  | nil => rfl
  | cons f rest ih =>
    by_cases h : validateFieldReasons f (vals f.id) = []
    · simp only [List.filterMap_cons, List.filter_cons, h,
        List.getLast?_eq_none_iff.mpr rfl]
      simp [validateField, h, ih]
    · cases hl : (validateFieldReasons f (vals f.id)).getLast? with
      | none => exact absurd (List.getLast?_eq_none_iff.mp hl) h
      | some r =>
        simp only [List.filterMap_cons, List.filter_cons, hl]
        simp [validateField, h, ih]

/-- `validateCurrentSection` succeeds exactly when no field of the section is
invalid. -/
theorem validateCurrentSection_iff (sec : Section) (vals : Vals) :
    validateCurrentSection sec vals = true ↔ invalidFields sec vals = [] := by
  unfold validateCurrentSection invalidFields
  simp [List.all_eq_true, List.filter_eq_nil_iff]

/-- The failure report is empty exactly when no field is invalid. -/
theorem sectionFailures_empty_iff (sec : Section) (vals : Vals) :
    sectionFailures sec vals = [] ↔ invalidFields sec vals = [] := by
  constructor
  · intro h
    have hk := sectionFailures_keys sec vals
    rw [h] at hk
    exact List.map_eq_nil_iff.mp hk.symm
  · intro h
    have hk := sectionFailures_keys sec vals
    rw [h] at hk
    simp only [List.map_nil] at hk
    exact List.map_eq_nil_iff.mp hk

/-- C7: when some field of the current section fails validation, `next()`
leaves the wizard state — in particular the current section index —
unchanged, the failure report carries exactly one entry per invalid field
keyed by that field's id, and with exactly one invalid field it carries
exactly one failure. -/
theorem c7_next_blocked (sections : List Section) (vals : Vals)
    (st : WizardState)
    (h : sectionFailures (sections.getD st.currentStep emptySection) vals
      ≠ []) :
    navigateNext sections vals st = st ∧
    (sectionFailures (sections.getD st.currentStep emptySection) vals).map
        Prod.fst =
      (invalidFields (sections.getD st.currentStep emptySection) vals).map
        FieldDef.id ∧
    ((invalidFields (sections.getD st.currentStep emptySection) vals).length
        = 1 →
      (sectionFailures (sections.getD st.currentStep emptySection)
        vals).length = 1) := by
  have hkeys :=
    sectionFailures_keys (sections.getD st.currentStep emptySection) vals
  have hinv :
      invalidFields (sections.getD st.currentStep emptySection) vals ≠ [] :=
    fun hc => h ((sectionFailures_empty_iff _ vals).mpr hc)
  have hvcs :
      validateCurrentSection (sections.getD st.currentStep emptySection) vals
        = false := by
    cases hb :
      validateCurrentSection (sections.getD st.currentStep emptySection) vals
    · rfl
    · exact absurd ((validateCurrentSection_iff _ vals).mp hb) hinv
  refine ⟨?_, hkeys, ?_⟩
  · simp only [navigateNext]
    rw [hvcs]
    simp
  · intro h1
    have hlen := congrArg List.length hkeys
    simp only [List.length_map] at hlen
    rw [hlen, h1]

/-- The failure report of the concrete section against the concrete values:
exactly one failure, keyed by the empty required field's id. -/
theorem sectionFailures_secDoc :
    sectionFailures secDoc valsEmptyTitle =
      [("title", "Field ini wajib diisi")] := rfl

/-- C7, witness for `c7_next_blocked` at a concrete input: a section whose
required title field is empty blocks `next()`. -/
theorem c7_next_blocked_witness :
    navigateNext [secDoc] valsEmptyTitle { currentStep := 0, formData := [] }
      = { currentStep := 0, formData := [] } :=
  (c7_next_blocked [secDoc] valsEmptyTitle
    { currentStep := 0, formData := [] } (by simp [sectionFailures_secDoc])).1

/-! ## Claim C9 -/

/-- C9: sidebar section-jump navigation merges the current section's live
values into the draft and sets the section index to the target directly; it
never blocks on validation (the conclusion holds for arbitrary live values,
valid or not), unlike `next()`, which keeps the index in place whenever
validation fails. -/
theorem c9_jumpTo_bypasses_validation (sections : List Section) (vals : Vals)
    (st : WizardState) (index : Nat) (h1 : index < sections.length)
    (h2 : st.currentStep ≠ index) :
    jumpTo sections vals st index =
      { currentStep := index,
        formData := mergeData st.formData
          (getCurrentFormData (sections.getD st.currentStep emptySection)
            vals) } ∧
    (jumpTo sections vals st index).currentStep = index ∧
    (validateCurrentSection (sections.getD st.currentStep emptySection) vals
        = false →
      (navigateNext sections vals st).currentStep = st.currentStep) := by
  have hj : jumpTo sections vals st index =
      { currentStep := index,
        formData := mergeData st.formData
          (getCurrentFormData (sections.getD st.currentStep emptySection)
            vals) } := by
    simp [jumpTo, h1, h2, saveCurrentSectionData]
  refine ⟨hj, by rw [hj], ?_⟩
  intro hv
  simp only [navigateNext]
  rw [hv]
  simp

/-- C9, witness for `c9_jumpTo_bypasses_validation` at a concrete input: a
jump from the invalid first section to section 1 succeeds. -/
theorem c9_jumpTo_bypasses_validation_witness :
    (jumpTo [secDoc, secOverview] valsEmptyTitle
      { currentStep := 0, formData := [] } 1).currentStep = 1 :=
  (c9_jumpTo_bypasses_validation [secDoc, secOverview] valsEmptyTitle
    { currentStep := 0, formData := [] } 1 (by decide) (by decide)).2.1
